import Mathlib

/-!
Shallow embedding of the messages-service processing orchestrator
(`internal/messages/service.go`) and its storage layer
(`internal/storage/repo.go`).

Modelling conventions:
* `json.RawMessage` is modelled as `String`; the Go check
  `len(dto.ModelAnswer) == 0` is `modelAnswer = ""` and
  `string(dto.ModelAnswer) == "null"` is `modelAnswer = "null"`.
* `time.Time` is modelled as `Int`; the Go zero value / `IsZero` is `0`,
  and `time.Now().UTC()` is the ambient `Env.now`.
* `uuid.NewString()` is the ambient `Env.genId`.
* Technical failures of external collaborators are injected through `Env`:
  `dbOk` covers I/O failures of the SQL store, `sendOk topic` covers
  `producer.Send` per topic.  `json.Marshal` of the in-repo message structs
  is modelled as total (the payloads are structured values here, so the
  marshal step cannot fail in the model); published messages are recorded
  as structured `Payload` values rather than byte strings.
* The store is an association list keyed by mail id.  `CreateMail` is an
  SQL `INSERT`; the `mails` table's migration is not part of the sources,
  so the primary-key behaviour is modelled from the spec (see `createMail`).
-/

/-- The domain entity `Mail` (struct `Mail` in service.go / the `mails` row
read by repo.go's `GetMail`). `NULL` text columns read back as `""`. -/
structure Mail where
  id : String
  input : String
  fromEmail : String
  toEmail : String
  receivedAt : Int
  attempts : Int
  status : String
  classification : String
  modelAnswer : String
  failedReason : String
deriving DecidableEq, Repr

/-- DTO for `/process` (`IncomingMessageDTO`). -/
structure IncomingMessageDTO where
  id : String
  input : String
  fromEmail : String
  toEmail : String
  receivedAt : Int
deriving DecidableEq, Repr

/-- DTO for `/validate_processed_message` (`ValidateMessageDTO`). -/
structure ValidateMessageDTO where
  id : String
  classification : String
  modelAnswer : String
deriving DecidableEq, Repr

/-- The structured content of a published Kafka message:
`LLMTaskMessage`, `ProcessedMessage`, and `FailedMessage` of service.go.
`FailedMessage.Payload` is the best-effort-serialized callback DTO. -/
inductive Payload where
  | task (id input fromEmail toEmail : String) (receivedAt : Int)
  | result (id classification modelAnswer : String)
  | dead (id reason : String) (timestamp : Int) (payload : ValidateMessageDTO)
deriving DecidableEq, Repr

/-- A call to `producer.Send(ctx, topic, key, value)`. -/
structure KMsg where
  topic : String
  key : String
  value : Payload
deriving DecidableEq, Repr

/-- Service configuration (fields of `Service` set by `NewService`). -/
structure Config where
  maxAttempts : Int
  inputTopic : String
  outputTopic : String
  deadLetterTopic : String
deriving DecidableEq, Repr

/-- Ambient effects of one request: current time, generated uuid, and
technical success/failure of the store and of `producer.Send` per topic. -/
structure Env where
  now : Int
  genId : String
  dbOk : Bool
  sendOk : String → Bool

/-- Errors returned by the service, classified per the taxonomy:
caller-input validation errors, not-found (absent id / zero rows
updated), and technical store/broker errors. -/
inductive SvcError where
  | validation (msg : String)
  | notFound (id : String)
  | technical (msg : String)
deriving DecidableEq, Repr

/-- The mail store: rows of the `mails` table, keyed by id. -/
abbrev Store := List (String × Mail)

/-- Row lookup, `SELECT ... FROM mails WHERE id = $1` (first matching row). -/
def lookupMail : Store → String → Option Mail
  | [], _ => none
  | (k, m) :: rest, id => if k = id then some m else lookupMail rest id

/-- Row update, `UPDATE mails SET ... WHERE id = $1`: rewrite the (first)
row with the given key, leave everything else untouched. -/
def setMail : Store → String → (Mail → Mail) → Store
  | [], _, _ => []
  | (k, m) :: rest, id, f =>
      if k = id then (k, f m) :: rest else (k, m) :: setMail rest id f

/-- Repo.CreateMail: `INSERT INTO mails (...) VALUES (...)`.
Modelled from the spec: the migration creating the `mails` table is not in
the sources; per §3 `id` is the primary key, so inserting a duplicate id
fails with a (technical) constraint error and changes nothing. -/
def createMail (env : Env) (s : Store) (m : Mail) : Except SvcError Store :=
  if !env.dbOk then .error (.technical "save mail") else
  match lookupMail s m.id with
  | some _ => .error (.technical "save mail")
  | none => .ok ((m.id, m) :: s)

/-- Repo.GetMail: row lookup; `sql.ErrNoRows` becomes "mail not found". -/
def getMail (env : Env) (s : Store) (id : String) : Except SvcError Mail :=
  if !env.dbOk then .error (.technical "get mail") else
  match lookupMail s id with
  | some m => .ok m
  | none => .error (.notFound id)

/-- Repo.IncrementAttempts: `UPDATE mails SET attempts = attempts + 1 WHERE
id = $1`; zero rows affected is reported as not found. -/
def incrementAttempts (env : Env) (s : Store) (id : String) :
    Except SvcError Store :=
  if !env.dbOk then .error (.technical "increment attempts") else
  match lookupMail s id with
  | some _ => .ok (setMail s id (fun m => { m with attempts := m.attempts + 1 }))
  | none => .error (.notFound id)

/-- Repo.MarkAsFailed: `UPDATE mails SET status = 'failed', failed_reason =
$2 WHERE id = $1`; zero rows affected is reported as not found. -/
def markAsFailed (env : Env) (s : Store) (id reason : String) :
    Except SvcError Store :=
  if !env.dbOk then .error (.technical "mark as failed") else
  match lookupMail s id with
  | some _ =>
      .ok (setMail s id (fun m => { m with status := "failed", failedReason := reason }))
  | none => .error (.notFound id)

/-- Repo.SaveLLMResult: `UPDATE mails SET classification = $2, model_answer
= $3, status = 'processed' WHERE id = $1`; zero rows affected is reported
as not found.  Note: the `WHERE` clause matches on id only — there is no
status guard. -/
def saveLLMResult (env : Env) (s : Store) (id classification modelAnswer : String) :
    Except SvcError Store :=
  if !env.dbOk then .error (.technical "save llm result") else
  match lookupMail s id with
  | some _ =>
      .ok (setMail s id (fun m =>
        { m with classification := classification, modelAnswer := modelAnswer,
                 status := "processed" }))
  | none => .error (.notFound id)

/-- The observable state a request acts on: the mail store plus the list of
messages handed to `producer.Send`, in publish order. -/
structure State where
  store : Store
  published : List KMsg
deriving DecidableEq, Repr

/-- The id the admission flow uses: the caller's, or a generated uuid
(the `id := uuid.NewString()` default of ProcessIncomingMessage). -/
def admitId (env : Env) (dto : IncomingMessageDTO) : String :=
  if dto.id = "" then env.genId else dto.id

/-- The receipt timestamp after defaulting (`receivedAt = time.Now().UTC()`
when the caller's value is the zero time). -/
def admitReceivedAt (env : Env) (dto : IncomingMessageDTO) : Int :=
  if dto.receivedAt = 0 then env.now else dto.receivedAt

/-- The record ProcessIncomingMessage constructs and persists:
`&Mail{ID: id, ..., Attempts: 0, Status: "new"}`. -/
def admitMail (env : Env) (dto : IncomingMessageDTO) : Mail :=
  { id := admitId env dto, input := dto.input, fromEmail := dto.fromEmail,
    toEmail := dto.toEmail, receivedAt := admitReceivedAt env dto,
    attempts := 0, status := "new",
    classification := "", modelAnswer := "", failedReason := "" }

/-- Service.ProcessIncomingMessage: validate, default id and receivedAt,
persist with attempts=0 / status="new", then publish the task. -/
def processIncomingMessage (cfg : Config) (env : Env)
    (dto : IncomingMessageDTO) (st : State) : Except SvcError Unit × State :=
  if dto.input = "" then (.error (.validation "input is empty"), st)
  else if dto.fromEmail = "" ∨ dto.toEmail = "" then
    (.error (.validation "from/to must be set"), st)
  else
    let mail := admitMail env dto
    match createMail env st.store mail with
    | .error e => (.error e, st)
    | .ok store' =>
      let st' : State := { st with store := store' }
      let task : KMsg :=
        ⟨cfg.inputTopic, mail.id,
          .task mail.id mail.input mail.fromEmail mail.toEmail mail.receivedAt⟩
      if env.sendOk cfg.inputTopic then
        (.ok (), { st' with published := st'.published ++ [task] })
      else
        (.error (.technical "send to kafka"), st')

/-- Service.validateLLMOutput: structural validation of the LLM callback.
Returns the error message, or `none` when the payload is accepted. -/
def validateLLMOutput (dto : ValidateMessageDTO) : Option String :=
  if dto.classification = "" then some "empty classification"
  else if dto.modelAnswer = "" || dto.modelAnswer = "null" then
    some "empty model_answer"
  else none

/-- The reason string `fmt.Sprintf("max attempts reached (%d): %v", ...)`. -/
def failReason (maxAttempts : Int) (validationErr : String) : String :=
  "max attempts reached (" ++ toString maxAttempts ++ "): " ++ validationErr

/-- Service.handleInvalidLLMOutput: re-read the record; if
`attempts + 1 >= maxAttempts` mark it failed and publish to the dead-letter
topic, otherwise increment attempts and re-publish the task. -/
def handleInvalidLLMOutput (cfg : Config) (env : Env)
    (dto : ValidateMessageDTO) (validationErr : String) (st : State) :
    Except SvcError Unit × State :=
  match getMail env st.store dto.id with
  | .error e => (.error e, st)
  | .ok mail =>
    let currentAttempts := mail.attempts
    if currentAttempts + 1 ≥ cfg.maxAttempts then
      let reason := failReason cfg.maxAttempts validationErr
      match markAsFailed env st.store dto.id reason with
      | .error e => (.error e, st)
      | .ok store' =>
        let st' : State := { st with store := store' }
        let failedMsg : KMsg :=
          ⟨cfg.deadLetterTopic, dto.id, .dead dto.id reason env.now dto⟩
        if env.sendOk cfg.deadLetterTopic then
          (.ok (), { st' with published := st'.published ++ [failedMsg] })
        else
          (.error (.technical "send to dlq"), st')
    else
      match incrementAttempts env st.store dto.id with
      | .error e => (.error e, st)
      | .ok store' =>
        let st' : State := { st with store := store' }
        let task : KMsg :=
          ⟨cfg.inputTopic, dto.id,
            .task mail.id mail.input mail.fromEmail mail.toEmail mail.receivedAt⟩
        if env.sendOk cfg.inputTopic then
          (.ok (), { st' with published := st'.published ++ [task] })
        else
          (.error (.technical "send retry to kafka"), st')

/-- Service.ValidateProcessedMessage: reject an empty id, run structural
validation, then either persist + publish the accepted result or enter the
retry/dead-letter handling. -/
def validateProcessedMessage (cfg : Config) (env : Env)
    (dto : ValidateMessageDTO) (st : State) : Except SvcError Unit × State :=
  if dto.id = "" then (.error (.validation "id is empty"), st)
  else
    match validateLLMOutput dto with
    | some verr => handleInvalidLLMOutput cfg env dto verr st
    | none =>
      match saveLLMResult env st.store dto.id dto.classification dto.modelAnswer with
      | .error e => (.error e, st)
      | .ok store' =>
        let st' : State := { st with store := store' }
        let msg : KMsg :=
          ⟨cfg.outputTopic, dto.id,
            .result dto.id dto.classification dto.modelAnswer⟩
        if env.sendOk cfg.outputTopic then
          (.ok (), { st' with published := st'.published ++ [msg] })
        else
          (.error (.technical "send processed to kafka"), st')

/-- One externally triggered request against the service. -/
inductive Op where
  | process (env : Env) (dto : IncomingMessageDTO)
  | validate (env : Env) (dto : ValidateMessageDTO)

/-- The state reached after one request (its result code is dropped). -/
def runOp (cfg : Config) (st : State) (op : Op) : State :=
  match op with
  | .process env dto => (processIncomingMessage cfg env dto st).2
  | .validate env dto => (validateProcessedMessage cfg env dto st).2

/-- The state reached after a sequence of requests. -/
def runOps (cfg : Config) (st : State) (ops : List Op) : State :=
  ops.foldl (runOp cfg) st

/-- The empty initial state: no mails, nothing published. -/
def initState : State := ⟨[], []⟩

/-! ### Concrete instances used by the theorems and witnesses -/

/-- Configuration with `maxAttempts = 3` and the default topic names of
`configs/messages-service.yaml`. -/
def cfg3 : Config := ⟨3, "llm_input", "llm_output", "llm_dead_letter"⟩

/-- An environment where every store and broker call succeeds. -/
def envOk : Env := ⟨100, "gen-uuid", true, fun _ => true⟩

/-- A freshly admitted mail record (attempts 0, status "new"). -/
def mailA : Mail :=
  ⟨"a", "hello", "x@mail", "y@mail", 7, 0, "new", "", "", ""⟩

/-- An environment whose store is up but whose broker is down. -/
def envNoSend : Env := ⟨100, "gen-uuid", true, fun _ => false⟩

/-- A concrete valid admission request (no id, zero timestamp). -/
def dtoA : IncomingMessageDTO := ⟨"", "hello", "x@mail", "y@mail", 0⟩

/-- A structurally valid LLM callback for mail "a". -/
def validDtoA : ValidateMessageDTO := ⟨"a", "important", "\x7b\x7d"⟩

/-- An invalid LLM callback for mail "a" (empty classification). -/
def invalidDtoA : ValidateMessageDTO := ⟨"a", "", "null"⟩

/-- An LLM callback for an id never admitted, with an invalid payload. -/
def invalidDtoB : ValidateMessageDTO := ⟨"b", "", ""⟩

/-- A structurally valid callback for an id never admitted. -/
def validDtoZ : ValidateMessageDTO := ⟨"zz", "normal", "\x7b\x7d"⟩

/-- The store state holding exactly the freshly admitted mail "a". -/
def stA : State := ⟨[("a", mailA)], []⟩

/-- State after one invalid validate-result call for mail "a" (maxAttempts 3). -/
def stepA1 : State := runOp cfg3 stA (.validate envOk invalidDtoA)

/-- State after the second invalid call. -/
def stepA2 : State := runOp cfg3 stepA1 (.validate envOk invalidDtoA)

/-- State after the third invalid call. -/
def stepA3 : State := runOp cfg3 stepA2 (.validate envOk invalidDtoA)

/-- Mail "a" after two failed validation attempts. -/
def mailA2 : Mail := { mailA with attempts := 2 }

/-- A record that already reached "failed" (after exhausting 3 attempts
would be attempts = 2; here with its failure reason recorded). -/
def failedMailF : Mail :=
  ⟨"f", "hi", "x@mail", "y@mail", 7, 2, "failed", "", "",
   "max attempts reached (3): empty classification"⟩

/-- A record that already reached "processed", with its result stored. -/
def processedMailP : Mail :=
  ⟨"p", "hi", "x@mail", "y@mail", 7, 0, "processed", "important", "\x7b\x7d", ""⟩

/-- Every record in the store has fewer attempts than the configured
maximum. -/
def AttemptsBounded (cfg : Config) (st : State) : Prop :=
  ∀ id m, lookupMail st.store id = some m → m.attempts < cfg.maxAttempts

/-! ### Helper lemmas about the store -/

theorem lookupMail_set (s : Store) (id : String) (f : Mail → Mail) (j : String) :
    lookupMail (setMail s id f) j =
      if j = id then (lookupMail s id).map f else lookupMail s j := by
  induction s with
  | nil => simp [setMail, lookupMail]
  | cons kv rest ih =>
    obtain ⟨k, m⟩ := kv
    by_cases hk : k = id
    · subst hk
      by_cases hj : k = j
      · subst hj
        simp [setMail, lookupMail]
      · have hj' : ¬ j = k := fun h => hj h.symm
        simp [setMail, lookupMail, hj, hj']
    · by_cases hj : k = j
      · subst hj
        simp [setMail, lookupMail, hk]
      · simp [setMail, lookupMail, hk, hj, ih]

theorem createMail_ok {env : Env} {s : Store} {m : Mail} {s' : Store}
    (h : createMail env s m = .ok s') :
    env.dbOk = true ∧ lookupMail s m.id = none ∧ s' = (m.id, m) :: s := by
  unfold createMail at h
  by_cases hdb : env.dbOk
  · simp only [hdb, Bool.not_true, Bool.false_eq_true, if_false] at h
    cases hlk : lookupMail s m.id with
    | some m0 => rw [hlk] at h; cases h
    | none => rw [hlk] at h; cases h; exact ⟨hdb, rfl, rfl⟩
  · simp only [Bool.not_eq_true] at hdb
    simp [hdb] at h

theorem incrementAttempts_ok {env : Env} {s : Store} {id : String} {s' : Store}
    (h : incrementAttempts env s id = .ok s') :
    ∃ m0, lookupMail s id = some m0 ∧
      s' = setMail s id (fun m => { m with attempts := m.attempts + 1 }) := by
  unfold incrementAttempts at h
  by_cases hdb : env.dbOk
  · simp only [hdb, Bool.not_true, Bool.false_eq_true, if_false] at h
    cases hlk : lookupMail s id with
    | some m0 => rw [hlk] at h; cases h; exact ⟨m0, rfl, rfl⟩
    | none => rw [hlk] at h; cases h
  · simp only [Bool.not_eq_true] at hdb
    simp [hdb] at h

theorem markAsFailed_ok {env : Env} {s : Store} {id reason : String} {s' : Store}
    (h : markAsFailed env s id reason = .ok s') :
    ∃ m0, lookupMail s id = some m0 ∧
      s' = setMail s id (fun m => { m with status := "failed", failedReason := reason }) := by
  unfold markAsFailed at h
  by_cases hdb : env.dbOk
  · simp only [hdb, Bool.not_true, Bool.false_eq_true, if_false] at h
    cases hlk : lookupMail s id with
    | some m0 => rw [hlk] at h; cases h; exact ⟨m0, rfl, rfl⟩
    | none => rw [hlk] at h; cases h
  · simp only [Bool.not_eq_true] at hdb
    simp [hdb] at h

theorem saveLLMResult_ok {env : Env} {s : Store} {id c a : String} {s' : Store}
    (h : saveLLMResult env s id c a = .ok s') :
    ∃ m0, lookupMail s id = some m0 ∧
      s' = setMail s id (fun m =>
        { m with classification := c, modelAnswer := a, status := "processed" }) := by
  unfold saveLLMResult at h
  by_cases hdb : env.dbOk
  · simp only [hdb, Bool.not_true, Bool.false_eq_true, if_false] at h
    cases hlk : lookupMail s id with
    | some m0 => rw [hlk] at h; cases h; exact ⟨m0, rfl, rfl⟩
    | none => rw [hlk] at h; cases h
  · simp only [Bool.not_eq_true] at hdb
    simp [hdb] at h

theorem getMail_ok {env : Env} {s : Store} {id : String} {m : Mail}
    (h : getMail env s id = .ok m) :
    env.dbOk = true ∧ lookupMail s id = some m := by
  unfold getMail at h
  by_cases hdb : env.dbOk
  · simp only [hdb, Bool.not_true, Bool.false_eq_true, if_false] at h
    cases hlk : lookupMail s id with
    | some m0 =>
      rw [hlk] at h
      have hm : m0 = m := by
        change Except.ok m0 = Except.ok m at h
        exact Except.ok.inj h
      exact ⟨hdb, congrArg some hm⟩
    | none => rw [hlk] at h; cases h
  · simp only [Bool.not_eq_true] at hdb
    simp [hdb] at h

/-! ### Computation lemmas for the admission flow -/

theorem createMail_error {env : Env} {s : Store} {m : Mail} {e : SvcError}
    (h : createMail env s m = .error e) : e = .technical "save mail" := by
  unfold createMail at h
  by_cases hdb : env.dbOk
  · simp only [hdb, Bool.not_true, Bool.false_eq_true, if_false] at h
    cases hlk : lookupMail s m.id with
    | some m0 =>
      rw [hlk] at h
      have h' : (Except.error (SvcError.technical "save mail") :
          Except SvcError Store) = .error e := h
      exact (Except.error.inj h').symm
    | none => rw [hlk] at h; cases h
  · simp only [Bool.not_eq_true] at hdb
    simp [hdb] at h
    exact h.symm

theorem processIncomingMessage_valid_run (cfg : Config) (env : Env)
    (dto : IncomingMessageDTO) (st : State)
    (hI : dto.input ≠ "") (hF : dto.fromEmail ≠ "") (hT : dto.toEmail ≠ "")
    (hdb : env.dbOk = true)
    (hfresh : lookupMail st.store (admitId env dto) = none) :
    processIncomingMessage cfg env dto st =
      if env.sendOk cfg.inputTopic then
        (.ok (), ⟨(admitId env dto, admitMail env dto) :: st.store,
          st.published ++ [⟨cfg.inputTopic, admitId env dto,
            .task (admitId env dto) dto.input dto.fromEmail dto.toEmail
              (admitReceivedAt env dto)⟩]⟩)
      else
        (.error (.technical "send to kafka"),
          ⟨(admitId env dto, admitMail env dto) :: st.store, st.published⟩) := by
  have hcm : createMail env st.store (admitMail env dto) =
      .ok ((admitId env dto, admitMail env dto) :: st.store) := by
    unfold createMail
    rw [hdb]
    simp only [Bool.not_true, Bool.false_eq_true, if_false]
    have hid : (admitMail env dto).id = admitId env dto := rfl
    rw [hid, hfresh]
  simp only [processIncomingMessage, if_neg hI, if_neg (not_or.mpr ⟨hF, hT⟩), hcm]
  rfl

theorem processIncomingMessage_dbfail (cfg : Config) (env : Env)
    (dto : IncomingMessageDTO) (st : State)
    (hI : dto.input ≠ "") (hF : dto.fromEmail ≠ "") (hT : dto.toEmail ≠ "")
    (hdb : env.dbOk = false) :
    processIncomingMessage cfg env dto st = (.error (.technical "save mail"), st) := by
  have hcm : createMail env st.store (admitMail env dto) =
      .error (.technical "save mail") := by
    unfold createMail
    rw [hdb]
    simp
  simp only [processIncomingMessage, if_neg hI, if_neg (not_or.mpr ⟨hF, hT⟩), hcm]

theorem processIncomingMessage_dup (cfg : Config) (env : Env)
    (dto : IncomingMessageDTO) (st : State) (m0 : Mail)
    (hI : dto.input ≠ "") (hF : dto.fromEmail ≠ "") (hT : dto.toEmail ≠ "")
    (hdup : lookupMail st.store (admitId env dto) = some m0) :
    processIncomingMessage cfg env dto st = (.error (.technical "save mail"), st) := by
  have hcm : createMail env st.store (admitMail env dto) =
      .error (.technical "save mail") := by
    unfold createMail
    by_cases hdb : env.dbOk
    · rw [hdb]
      simp only [Bool.not_true, Bool.false_eq_true, if_false]
      have hid : (admitMail env dto).id = admitId env dto := rfl
      rw [hid, hdup]
    · simp only [Bool.not_eq_true] at hdb
      rw [hdb]
      simp
  simp only [processIncomingMessage, if_neg hI, if_neg (not_or.mpr ⟨hF, hT⟩), hcm]

/-! ### C4 -/

/-- C4: structural validation is a pure function of (classification,
model-answer) that fails exactly when the classification is empty or the
model-answer is absent (empty) or serializes to null; nothing else of the
payload is inspected. -/
theorem validateLLMOutput_fails_iff (dto : ValidateMessageDTO) :
    (validateLLMOutput dto).isSome = true ↔
      dto.classification = "" ∨ dto.modelAnswer = "" ∨ dto.modelAnswer = "null" := by
  unfold validateLLMOutput
  by_cases h1 : dto.classification = "" <;>
    by_cases h2 : dto.modelAnswer = "" <;>
      by_cases h3 : dto.modelAnswer = "null" <;>
        simp [h1, h2, h3]

/-- Witness for C4 at a concrete invalid payload. -/
theorem validateLLMOutput_fails_iff_witness :
    (validateLLMOutput ⟨"m", "", "\x7b\x7d"⟩).isSome = true :=
  (validateLLMOutput_fails_iff ⟨"m", "", "\x7b\x7d"⟩).mpr (Or.inl rfl)

/-! ### C2 -/

/-- C2: admission fails with a validation error iff the input text, the
sender, or the recipient is empty; on valid input (fresh id, store and
broker up) the id is defaulted to the generated uuid, the receipt
timestamp to the current time, and a record with attempts = 0 and
status = "new" is persisted. -/
theorem processIncomingMessage_admission (cfg : Config) (env : Env)
    (dto : IncomingMessageDTO) (st : State) :
    ((∃ msg, (processIncomingMessage cfg env dto st).1 = .error (.validation msg)) ↔
      dto.input = "" ∨ dto.fromEmail = "" ∨ dto.toEmail = "") ∧
    (dto.id = "" → admitId env dto = env.genId) ∧
    (dto.receivedAt = 0 → admitReceivedAt env dto = env.now) ∧
    (admitMail env dto).attempts = 0 ∧ (admitMail env dto).status = "new" ∧
    (dto.input ≠ "" → dto.fromEmail ≠ "" → dto.toEmail ≠ "" →
      env.dbOk = true → env.sendOk cfg.inputTopic = true →
      lookupMail st.store (admitId env dto) = none →
      (processIncomingMessage cfg env dto st).1 = .ok () ∧
      lookupMail (processIncomingMessage cfg env dto st).2.store (admitId env dto) =
        some (admitMail env dto)) := by
  refine ⟨?_, fun h => by simp [admitId, h], fun h => by simp [admitReceivedAt, h],
    rfl, rfl, ?_⟩
  · constructor
    · rintro ⟨msg, hmsg⟩
      by_contra hno
      push_neg at hno
      obtain ⟨hI, hF, hT⟩ := hno
      by_cases hdb : env.dbOk
      · cases hlk : lookupMail st.store (admitId env dto) with
        | none =>
          rw [processIncomingMessage_valid_run cfg env dto st hI hF hT hdb hlk] at hmsg
          by_cases hs : env.sendOk cfg.inputTopic <;> simp [hs] at hmsg
        | some m0 =>
          rw [processIncomingMessage_dup cfg env dto st m0 hI hF hT hlk] at hmsg
          simp at hmsg
      · simp only [Bool.not_eq_true] at hdb
        rw [processIncomingMessage_dbfail cfg env dto st hI hF hT hdb] at hmsg
        simp at hmsg
    · intro h
      by_cases hI : dto.input = ""
      · exact ⟨"input is empty", by simp [processIncomingMessage, hI]⟩
      · have hFT : dto.fromEmail = "" ∨ dto.toEmail = "" := by tauto
        refine ⟨"from/to must be set", ?_⟩
        simp only [processIncomingMessage, if_neg hI, if_pos hFT]
  · intro hI hF hT hdb hs hfresh
    rw [processIncomingMessage_valid_run cfg env dto st hI hF hT hdb hfresh]
    simp [hs, lookupMail]

/-- Witness for C2: the valid-input branch at a concrete request. -/
theorem processIncomingMessage_admission_witness :
    (processIncomingMessage cfg3 envOk dtoA initState).1 = .ok () ∧
    lookupMail (processIncomingMessage cfg3 envOk dtoA initState).2.store
      (admitId envOk dtoA) = some (admitMail envOk dtoA) :=
  (processIncomingMessage_admission cfg3 envOk dtoA initState).2.2.2.2.2
    (by decide) (by decide) (by decide) rfl rfl rfl

/-! ### C3 -/

/-- C3: in the admission flow persistence happens strictly before the
publish: the operation succeeds iff both the store write and the publish
succeed; when the store is down nothing at all happens, and when the
publish fails after a successful persist the call errors while the record
stays persisted with status "new" and nothing is published. -/
theorem processIncomingMessage_persist_then_publish (cfg : Config) (env : Env)
    (dto : IncomingMessageDTO) (st : State)
    (hI : dto.input ≠ "") (hF : dto.fromEmail ≠ "") (hT : dto.toEmail ≠ "")
    (hfresh : lookupMail st.store (admitId env dto) = none) :
    ((processIncomingMessage cfg env dto st).1 = .ok () ↔
      env.dbOk = true ∧ env.sendOk cfg.inputTopic = true) ∧
    (env.dbOk = false → (processIncomingMessage cfg env dto st).2 = st) ∧
    (env.dbOk = true → env.sendOk cfg.inputTopic = false →
      (processIncomingMessage cfg env dto st).1 =
        .error (.technical "send to kafka") ∧
      lookupMail (processIncomingMessage cfg env dto st).2.store (admitId env dto) =
        some (admitMail env dto) ∧
      (admitMail env dto).status = "new" ∧
      (processIncomingMessage cfg env dto st).2.published = st.published) := by
  by_cases hdb : env.dbOk
  · rw [processIncomingMessage_valid_run cfg env dto st hI hF hT hdb hfresh]
    by_cases hs : env.sendOk cfg.inputTopic
    · simp [hs, hdb]
    · have hs' : env.sendOk cfg.inputTopic = false := by
        simpa using hs
      simp only [hs', Bool.false_eq_true, if_false]
      refine ⟨by simp [hdb, hs'], fun hcontra => ?_,
        fun _ _ => ⟨by trivial, ?_, by trivial, by trivial⟩⟩
      · rw [hdb] at hcontra
        cases hcontra
      · simp [lookupMail]
  · simp only [Bool.not_eq_true] at hdb
    rw [processIncomingMessage_dbfail cfg env dto st hI hF hT hdb]
    refine ⟨by simp [hdb], fun _ => rfl, fun hcontra => ?_⟩
    rw [hdb] at hcontra
    cases hcontra

/-- Witness for C3: publish failure after persist at a concrete request. -/
theorem processIncomingMessage_persist_then_publish_witness :
    (processIncomingMessage cfg3 envNoSend dtoA initState).1 =
      .error (.technical "send to kafka") ∧
    lookupMail (processIncomingMessage cfg3 envNoSend dtoA initState).2.store
      (admitId envNoSend dtoA) = some (admitMail envNoSend dtoA) ∧
    (admitMail envNoSend dtoA).status = "new" ∧
    (processIncomingMessage cfg3 envNoSend dtoA initState).2.published =
      initState.published :=
  ((processIncomingMessage_persist_then_publish cfg3 envNoSend dtoA initState
    (by decide) (by decide) (by decide) rfl).2.2) rfl rfl

/-! ### Computation lemmas for the validate-result flow -/

theorem validateProcessedMessage_valid_run (cfg : Config) (env : Env)
    (dto : ValidateMessageDTO) (st : State) (mail : Mail)
    (hid : dto.id ≠ "") (hok : validateLLMOutput dto = none)
    (hdb : env.dbOk = true) (hm : lookupMail st.store dto.id = some mail) :
    validateProcessedMessage cfg env dto st =
      if env.sendOk cfg.outputTopic then
        (.ok (), ⟨setMail st.store dto.id (fun m =>
            { m with classification := dto.classification,
                     modelAnswer := dto.modelAnswer, status := "processed" }),
          st.published ++ [⟨cfg.outputTopic, dto.id,
            .result dto.id dto.classification dto.modelAnswer⟩]⟩)
      else
        (.error (.technical "send processed to kafka"),
          ⟨setMail st.store dto.id (fun m =>
            { m with classification := dto.classification,
                     modelAnswer := dto.modelAnswer, status := "processed" }),
          st.published⟩) := by
  have hsave : saveLLMResult env st.store dto.id dto.classification dto.modelAnswer =
      .ok (setMail st.store dto.id (fun m =>
        { m with classification := dto.classification,
                 modelAnswer := dto.modelAnswer, status := "processed" })) := by
    unfold saveLLMResult
    rw [hdb]
    simp only [Bool.not_true, Bool.false_eq_true, if_false]
    rw [hm]
  simp only [validateProcessedMessage, if_neg hid, hok, hsave]

theorem handleInvalidLLMOutput_run (cfg : Config) (env : Env)
    (dto : ValidateMessageDTO) (verr : String) (st : State) (mail : Mail)
    (hdb : env.dbOk = true) (hm : lookupMail st.store dto.id = some mail) :
    handleInvalidLLMOutput cfg env dto verr st =
      if mail.attempts + 1 ≥ cfg.maxAttempts then
        (if env.sendOk cfg.deadLetterTopic then
          (.ok (), ⟨setMail st.store dto.id (fun m =>
              { m with status := "failed",
                       failedReason := failReason cfg.maxAttempts verr }),
            st.published ++ [⟨cfg.deadLetterTopic, dto.id,
              .dead dto.id (failReason cfg.maxAttempts verr) env.now dto⟩]⟩)
        else
          (.error (.technical "send to dlq"),
            ⟨setMail st.store dto.id (fun m =>
              { m with status := "failed",
                       failedReason := failReason cfg.maxAttempts verr }),
            st.published⟩))
      else
        (if env.sendOk cfg.inputTopic then
          (.ok (), ⟨setMail st.store dto.id (fun m =>
              { m with attempts := m.attempts + 1 }),
            st.published ++ [⟨cfg.inputTopic, dto.id,
              .task mail.id mail.input mail.fromEmail mail.toEmail mail.receivedAt⟩]⟩)
        else
          (.error (.technical "send retry to kafka"),
            ⟨setMail st.store dto.id (fun m =>
              { m with attempts := m.attempts + 1 }),
            st.published⟩)) := by
  have hget : getMail env st.store dto.id = .ok mail := by
    unfold getMail
    rw [hdb]
    simp only [Bool.not_true, Bool.false_eq_true, if_false]
    rw [hm]
  have hmark : markAsFailed env st.store dto.id (failReason cfg.maxAttempts verr) =
      .ok (setMail st.store dto.id (fun m =>
        { m with status := "failed",
                 failedReason := failReason cfg.maxAttempts verr })) := by
    unfold markAsFailed
    rw [hdb]
    simp only [Bool.not_true, Bool.false_eq_true, if_false]
    rw [hm]
  have hincr : incrementAttempts env st.store dto.id =
      .ok (setMail st.store dto.id (fun m =>
        { m with attempts := m.attempts + 1 })) := by
    unfold incrementAttempts
    rw [hdb]
    simp only [Bool.not_true, Bool.false_eq_true, if_false]
    rw [hm]
  simp only [handleInvalidLLMOutput, hget, hmark, hincr]

theorem handleInvalidLLMOutput_notFound (cfg : Config) (env : Env)
    (dto : ValidateMessageDTO) (verr : String) (st : State)
    (hdb : env.dbOk = true) (habs : lookupMail st.store dto.id = none) :
    handleInvalidLLMOutput cfg env dto verr st = (.error (.notFound dto.id), st) := by
  have hget : getMail env st.store dto.id = .error (.notFound dto.id) := by
    unfold getMail
    rw [hdb]
    simp only [Bool.not_true, Bool.false_eq_true, if_false]
    rw [habs]
  simp only [handleInvalidLLMOutput, hget]

/-! ### C5 -/

/-- C5: a valid validate-result call for an existing id (store and broker
up) persists the classification and model-answer, moves the record to
"processed", publishes exactly one result message with id, classification
and model-answer, returns success, and leaves attempts unchanged at any
attempt count. -/
theorem validateProcessedMessage_success (cfg : Config) (env : Env)
    (dto : ValidateMessageDTO) (st : State) (mail : Mail)
    (hid : dto.id ≠ "") (hok : validateLLMOutput dto = none)
    (hdb : env.dbOk = true) (hsend : env.sendOk cfg.outputTopic = true)
    (hm : lookupMail st.store dto.id = some mail) :
    (validateProcessedMessage cfg env dto st).1 = .ok () ∧
    lookupMail (validateProcessedMessage cfg env dto st).2.store dto.id =
      some { mail with classification := dto.classification,
                       modelAnswer := dto.modelAnswer, status := "processed" } ∧
    ({ mail with classification := dto.classification,
                 modelAnswer := dto.modelAnswer, status := "processed" } : Mail).attempts
      = mail.attempts ∧
    (validateProcessedMessage cfg env dto st).2.published =
      st.published ++ [⟨cfg.outputTopic, dto.id,
        .result dto.id dto.classification dto.modelAnswer⟩] := by
  rw [validateProcessedMessage_valid_run cfg env dto st mail hid hok hdb hm]
  simp only [hsend, if_true]
  refine ⟨by trivial, ?_, by trivial, by trivial⟩
  rw [lookupMail_set]
  simp [hm]

/-- Witness for C5 at a concrete callback. -/
theorem validateProcessedMessage_success_witness :
    (validateProcessedMessage cfg3 envOk validDtoA stA).1 = .ok () ∧
    lookupMail (validateProcessedMessage cfg3 envOk validDtoA stA).2.store
      validDtoA.id =
      some { mailA with classification := validDtoA.classification,
                        modelAnswer := validDtoA.modelAnswer,
                        status := "processed" } ∧
    ({ mailA with classification := validDtoA.classification,
                  modelAnswer := validDtoA.modelAnswer,
                  status := "processed" } : Mail).attempts = mailA.attempts ∧
    (validateProcessedMessage cfg3 envOk validDtoA stA).2.published =
      stA.published ++ [⟨cfg3.outputTopic, validDtoA.id,
        .result validDtoA.id validDtoA.classification validDtoA.modelAnswer⟩] :=
  validateProcessedMessage_success cfg3 envOk validDtoA stA mailA
    (by decide) rfl rfl rfl rfl

/-! ### C9 -/

/-- C9: an invalid callback whose id is absent from the store fails with a
not-found error and leaves the state (store and published messages)
completely unchanged. -/
theorem validateProcessedMessage_invalid_notFound (cfg : Config) (env : Env)
    (dto : ValidateMessageDTO) (verr : String) (st : State)
    (hid : dto.id ≠ "") (hinv : validateLLMOutput dto = some verr)
    (hdb : env.dbOk = true) (habs : lookupMail st.store dto.id = none) :
    validateProcessedMessage cfg env dto st = (.error (.notFound dto.id), st) := by
  simp only [validateProcessedMessage, if_neg hid, hinv]
  exact handleInvalidLLMOutput_notFound cfg env dto verr st hdb habs

/-- Witness for C9 at a concrete unknown id. -/
theorem validateProcessedMessage_invalid_notFound_witness :
    validateProcessedMessage cfg3 envOk invalidDtoB initState =
      (.error (.notFound invalidDtoB.id), initState) :=
  validateProcessedMessage_invalid_notFound cfg3 envOk invalidDtoB
    "empty classification" initState (by decide) rfl rfl rfl

/-! ### C10 -/

/-- C10: a structurally valid callback whose id is absent from the store
hits the zero-rows-updated case of SaveLLMResult, returns a not-found
error, and publishes nothing (state unchanged). -/
theorem validateProcessedMessage_valid_notFound (cfg : Config) (env : Env)
    (dto : ValidateMessageDTO) (st : State)
    (hid : dto.id ≠ "") (hok : validateLLMOutput dto = none)
    (hdb : env.dbOk = true) (habs : lookupMail st.store dto.id = none) :
    validateProcessedMessage cfg env dto st = (.error (.notFound dto.id), st) := by
  have hsave : saveLLMResult env st.store dto.id dto.classification dto.modelAnswer =
      .error (.notFound dto.id) := by
    unfold saveLLMResult
    rw [hdb]
    simp only [Bool.not_true, Bool.false_eq_true, if_false]
    rw [habs]
  simp only [validateProcessedMessage, if_neg hid, hok, hsave]

/-- Witness for C10 at a concrete unknown id. -/
theorem validateProcessedMessage_valid_notFound_witness :
    validateProcessedMessage cfg3 envOk validDtoZ initState =
      (.error (.notFound validDtoZ.id), initState) :=
  validateProcessedMessage_valid_notFound cfg3 envOk validDtoZ initState
    (by decide) rfl rfl rfl

/-! ### C8 -/

/-- C8: a structural validation failure is not an error of the
validate-result operation — for an existing id with store and broker up,
the call returns success both on the retry branch and on the dead-letter
branch. -/
theorem validateProcessedMessage_invalid_returns_ok (cfg : Config) (env : Env)
    (dto : ValidateMessageDTO) (st : State) (mail : Mail) (verr : String)
    (hid : dto.id ≠ "") (hinv : validateLLMOutput dto = some verr)
    (hdb : env.dbOk = true) (hsend : ∀ t, env.sendOk t = true)
    (hm : lookupMail st.store dto.id = some mail) :
    (validateProcessedMessage cfg env dto st).1 = .ok () := by
  simp only [validateProcessedMessage, if_neg hid, hinv]
  rw [handleInvalidLLMOutput_run cfg env dto verr st mail hdb hm]
  by_cases hge : mail.attempts + 1 ≥ cfg.maxAttempts <;>
    simp [hge, hsend]

/-- Witness for C8 on the retry branch at a concrete callback. -/
theorem validateProcessedMessage_invalid_returns_ok_witness :
    (validateProcessedMessage cfg3 envOk invalidDtoA stA).1 = .ok () :=
  validateProcessedMessage_invalid_returns_ok cfg3 envOk invalidDtoA stA mailA
    "empty classification" (by decide) rfl rfl (fun _ => rfl) rfl

/-! ### C1 -/

/-- C1: an invalid callback for an existing record either (if
attempts + 1 >= maxAttempts) marks the record failed without touching
attempts and publishes exactly one dead-letter message and no retry task,
or (otherwise) increments attempts by exactly one via the store, leaves
the status untouched, and publishes exactly one retry task to the input
topic; with maxAttempts = 3, three consecutive invalid calls give attempts
0→1→2 and the third call dead-letters with no fourth retry task. -/
theorem validateProcessedMessage_retry_dlq (cfg : Config) (env : Env)
    (dto : ValidateMessageDTO) (st : State) (mail : Mail) (verr : String)
    (hid : dto.id ≠ "") (hinv : validateLLMOutput dto = some verr)
    (hdb : env.dbOk = true) (hsend : ∀ t, env.sendOk t = true)
    (hm : lookupMail st.store dto.id = some mail) :
    (mail.attempts + 1 ≥ cfg.maxAttempts →
      (validateProcessedMessage cfg env dto st).1 = .ok () ∧
      lookupMail (validateProcessedMessage cfg env dto st).2.store dto.id =
        some { mail with status := "failed",
                         failedReason := failReason cfg.maxAttempts verr } ∧
      ({ mail with status := "failed",
                   failedReason := failReason cfg.maxAttempts verr } : Mail).attempts
        = mail.attempts ∧
      (validateProcessedMessage cfg env dto st).2.published =
        st.published ++ [⟨cfg.deadLetterTopic, dto.id,
          .dead dto.id (failReason cfg.maxAttempts verr) env.now dto⟩]) ∧
    (mail.attempts + 1 < cfg.maxAttempts →
      (validateProcessedMessage cfg env dto st).1 = .ok () ∧
      lookupMail (validateProcessedMessage cfg env dto st).2.store dto.id =
        some { mail with attempts := mail.attempts + 1 } ∧
      ({ mail with attempts := mail.attempts + 1 } : Mail).status = mail.status ∧
      (validateProcessedMessage cfg env dto st).2.published =
        st.published ++ [⟨cfg.inputTopic, dto.id,
          .task mail.id mail.input mail.fromEmail mail.toEmail mail.receivedAt⟩]) ∧
    ((lookupMail stA.store "a").map (fun m => (m.attempts, m.status)) =
        some (0, "new") ∧
      (lookupMail stepA1.store "a").map (fun m => (m.attempts, m.status)) =
        some (1, "new") ∧
      (lookupMail stepA2.store "a").map (fun m => (m.attempts, m.status)) =
        some (2, "new") ∧
      (lookupMail stepA3.store "a").map (fun m => (m.attempts, m.status)) =
        some (2, "failed") ∧
      stepA3.published =
        [⟨cfg3.inputTopic, "a", .task "a" "hello" "x@mail" "y@mail" 7⟩,
         ⟨cfg3.inputTopic, "a", .task "a" "hello" "x@mail" "y@mail" 7⟩,
         ⟨cfg3.deadLetterTopic, "a",
           .dead "a" (failReason 3 "empty classification") envOk.now invalidDtoA⟩]) := by
  have hrun := handleInvalidLLMOutput_run cfg env dto verr st mail hdb hm
  refine ⟨?_, ?_, by decide, by decide, by decide, by decide, by decide⟩
  · intro hge
    simp only [validateProcessedMessage, if_neg hid, hinv]
    rw [hrun, if_pos hge, if_pos (hsend cfg.deadLetterTopic)]
    refine ⟨by trivial, ?_, by trivial, by trivial⟩
    rw [lookupMail_set]
    simp [hm]
  · intro hlt
    simp only [validateProcessedMessage, if_neg hid, hinv]
    rw [hrun, if_neg (not_le.mpr hlt), if_pos (hsend cfg.inputTopic)]
    refine ⟨by trivial, ?_, by trivial, by trivial⟩
    rw [lookupMail_set]
    simp [hm]

/-- Witness for C1: the dead-letter branch at the third invalid callback. -/
theorem validateProcessedMessage_retry_dlq_witness :
    (validateProcessedMessage cfg3 envOk invalidDtoA stepA2).1 = .ok () ∧
    lookupMail (validateProcessedMessage cfg3 envOk invalidDtoA stepA2).2.store
      invalidDtoA.id =
      some { mailA2 with
             status := "failed",
             failedReason := failReason cfg3.maxAttempts "empty classification" } ∧
    ({ mailA2 with
       status := "failed",
       failedReason := failReason cfg3.maxAttempts "empty classification" } : Mail).attempts
      = mailA2.attempts ∧
    (validateProcessedMessage cfg3 envOk invalidDtoA stepA2).2.published =
      stepA2.published ++ [⟨cfg3.deadLetterTopic, invalidDtoA.id,
        .dead invalidDtoA.id (failReason cfg3.maxAttempts "empty classification")
          envOk.now invalidDtoA⟩] :=
  (validateProcessedMessage_retry_dlq cfg3 envOk invalidDtoA stepA2
    mailA2 "empty classification"
    (by decide) rfl rfl (fun _ => rfl) (by decide)).1 (by decide)

/-! ### C6 -/

/-- C6 is false on the code: "processed" and "failed" are not terminal.
SaveLLMResult updates `WHERE id = $1` with no status guard, so a later
valid validate-result call moves a "failed" record to "processed"; and
handleInvalidLLMOutput reads only `attempts`, so a later invalid call on a
"processed" record with attempts + 1 < maxAttempts increments its
attempts. -/
theorem terminal_status_mutable :
    ((lookupMail (validateProcessedMessage cfg3 envOk ⟨"f", "important", "\x7b\x7d"⟩
        ⟨[("f", failedMailF)], []⟩).2.store "f").map Mail.status =
      some "processed") ∧
    ((lookupMail (validateProcessedMessage cfg3 envOk ⟨"p", "", "null"⟩
        ⟨[("p", processedMailP)], []⟩).2.store "p").map Mail.attempts =
      some 1) := by
  decide

/-! ### C7 -/

theorem processIncomingMessage_store_shape (cfg : Config) (env : Env)
    (dto : IncomingMessageDTO) (st : State) :
    (processIncomingMessage cfg env dto st).2.store = st.store ∨
    (∃ m : Mail, lookupMail st.store m.id = none ∧ m.attempts = 0 ∧
      (processIncomingMessage cfg env dto st).2.store = (m.id, m) :: st.store) := by
  by_cases hI : dto.input = ""
  · left
    simp [processIncomingMessage, hI]
  by_cases hFT : dto.fromEmail = "" ∨ dto.toEmail = ""
  · left
    simp only [processIncomingMessage, if_neg hI, if_pos hFT]
  cases hc : createMail env st.store (admitMail env dto) with
  | error e =>
    left
    simp only [processIncomingMessage, if_neg hI, if_neg hFT, hc]
  | ok s' =>
    obtain ⟨hdb, hfresh, hstore⟩ := createMail_ok hc
    right
    refine ⟨admitMail env dto, hfresh, rfl, ?_⟩
    simp only [processIncomingMessage, if_neg hI, if_neg hFT, hc]
    by_cases hs : env.sendOk cfg.inputTopic = true <;> simp [hs, hstore]

theorem validateProcessedMessage_store_shape (cfg : Config) (env : Env)
    (dto : ValidateMessageDTO) (st : State) :
    (validateProcessedMessage cfg env dto st).2.store = st.store ∨
    (∃ f : Mail → Mail, (∀ m, (f m).attempts = m.attempts) ∧
      (validateProcessedMessage cfg env dto st).2.store = setMail st.store dto.id f) ∨
    (∃ m0, lookupMail st.store dto.id = some m0 ∧
      m0.attempts + 1 < cfg.maxAttempts ∧
      (validateProcessedMessage cfg env dto st).2.store =
        setMail st.store dto.id (fun m => { m with attempts := m.attempts + 1 })) := by
  by_cases hid : dto.id = ""
  · left
    simp [validateProcessedMessage, hid]
  cases hv : validateLLMOutput dto with
  | none =>
    cases hsv : saveLLMResult env st.store dto.id dto.classification dto.modelAnswer with
    | error e =>
      left
      simp only [validateProcessedMessage, if_neg hid, hv, hsv]
    | ok s' =>
      obtain ⟨m0, hm0, hs'⟩ := saveLLMResult_ok hsv
      right; left
      refine ⟨fun m => { m with classification := dto.classification,
                                modelAnswer := dto.modelAnswer,
                                status := "processed" }, fun m => rfl, ?_⟩
      simp only [validateProcessedMessage, if_neg hid, hv, hsv]
      by_cases hs : env.sendOk cfg.outputTopic = true <;> simp [hs, hs']
  | some verr =>
    have hred : validateProcessedMessage cfg env dto st =
        handleInvalidLLMOutput cfg env dto verr st := by
      simp only [validateProcessedMessage, if_neg hid, hv]
    rw [hred]
    cases hg : getMail env st.store dto.id with
    | error e =>
      left
      simp only [handleInvalidLLMOutput, hg]
    | ok mail =>
      obtain ⟨hdb, hmail⟩ := getMail_ok hg
      rw [handleInvalidLLMOutput_run cfg env dto verr st mail hdb hmail]
      by_cases hge : mail.attempts + 1 ≥ cfg.maxAttempts
      · right; left
        refine ⟨fun m => { m with status := "failed",
                                  failedReason := failReason cfg.maxAttempts verr },
          fun m => rfl, ?_⟩
        rw [if_pos hge]
        by_cases hs : env.sendOk cfg.deadLetterTopic = true <;> simp [hs]
      · right; right
        refine ⟨mail, hmail, by omega, ?_⟩
        rw [if_neg hge]
        by_cases hs : env.sendOk cfg.inputTopic = true <;> simp [hs]

theorem runOp_attempts_step (cfg : Config) (st : State) (op : Op) (id : String)
    (m' : Mail) (h : lookupMail (runOp cfg st op).store id = some m') :
    (lookupMail st.store id = none ∧ m'.attempts = 0) ∨
    (∃ m, lookupMail st.store id = some m ∧
      (m'.attempts = m.attempts ∨
        (m'.attempts = m.attempts + 1 ∧ m'.attempts < cfg.maxAttempts))) := by
  cases op with
  | process env dto =>
    simp only [runOp] at h
    rcases processIncomingMessage_store_shape cfg env dto st with
      hsh | ⟨mnew, hfresh, h0, hsh⟩
    · rw [hsh] at h
      exact Or.inr ⟨m', h, Or.inl rfl⟩
    · rw [hsh] at h
      simp only [lookupMail] at h
      by_cases hk : mnew.id = id
      · rw [if_pos hk] at h
        left
        refine ⟨?_, ?_⟩
        · rw [← hk]
          exact hfresh
        · rw [← Option.some.inj h]
          exact h0
      · rw [if_neg hk] at h
        exact Or.inr ⟨m', h, Or.inl rfl⟩
  | validate env dto =>
    simp only [runOp] at h
    rcases validateProcessedMessage_store_shape cfg env dto st with
      hsh | ⟨f, hf, hsh⟩ | ⟨m0, hm0, hlt, hsh⟩
    · rw [hsh] at h
      exact Or.inr ⟨m', h, Or.inl rfl⟩
    · rw [hsh, lookupMail_set] at h
      by_cases hk : id = dto.id
      · rw [if_pos hk] at h
        obtain ⟨m, hm, hfm⟩ := Option.map_eq_some'.mp h
        refine Or.inr ⟨m, ?_, Or.inl ?_⟩
        · rw [hk]
          exact hm
        · rw [← hfm]
          exact hf m
      · rw [if_neg hk] at h
        exact Or.inr ⟨m', h, Or.inl rfl⟩
    · rw [hsh, lookupMail_set] at h
      by_cases hk : id = dto.id
      · rw [if_pos hk, hm0] at h
        have hm' : m' = { m0 with attempts := m0.attempts + 1 } :=
          (Option.some.inj h).symm
        refine Or.inr ⟨m0, ?_, Or.inr ⟨?_, ?_⟩⟩
        · rw [hk]
          exact hm0
        · rw [hm']
        · rw [hm']
          exact hlt
      · rw [if_neg hk] at h
        exact Or.inr ⟨m', h, Or.inl rfl⟩

theorem runOp_preserves_mail (cfg : Config) (st : State) (op : Op) (id : String)
    (m : Mail) (h : lookupMail st.store id = some m) :
    ∃ m', lookupMail (runOp cfg st op).store id = some m' ∧
      m.attempts ≤ m'.attempts := by
  cases op with
  | process env dto =>
    simp only [runOp]
    rcases processIncomingMessage_store_shape cfg env dto st with
      hsh | ⟨mnew, hfresh, h0, hsh⟩
    · rw [hsh]
      exact ⟨m, h, le_refl _⟩
    · rw [hsh]
      simp only [lookupMail]
      by_cases hk : mnew.id = id
      · rw [hk] at hfresh
        rw [hfresh] at h
        cases h
      · rw [if_neg hk]
        exact ⟨m, h, le_refl _⟩
  | validate env dto =>
    simp only [runOp]
    rcases validateProcessedMessage_store_shape cfg env dto st with
      hsh | ⟨f, hf, hsh⟩ | ⟨m0, hm0, hlt, hsh⟩
    · rw [hsh]
      exact ⟨m, h, le_refl _⟩
    · rw [hsh, lookupMail_set]
      by_cases hk : id = dto.id
      · rw [if_pos hk, ← hk, h]
        exact ⟨f m, rfl, le_of_eq (hf m).symm⟩
      · rw [if_neg hk]
        exact ⟨m, h, le_refl _⟩
    · rw [hsh, lookupMail_set]
      by_cases hk : id = dto.id
      · rw [if_pos hk, ← hk, h]
        refine ⟨{ m with attempts := m.attempts + 1 }, rfl, ?_⟩
        show m.attempts ≤ m.attempts + 1
        omega
      · rw [if_neg hk]
        exact ⟨m, h, le_refl _⟩

theorem runOps_attempts_mono (cfg : Config) (ops : List Op) :
    ∀ st id m, lookupMail st.store id = some m →
      ∃ m', lookupMail (runOps cfg st ops).store id = some m' ∧
        m.attempts ≤ m'.attempts := by
  induction ops with
  | nil => exact fun st id m h => ⟨m, h, le_refl _⟩
  | cons op ops ih =>
    intro st id m h
    obtain ⟨m1, h1, hle1⟩ := runOp_preserves_mail cfg st op id m h
    obtain ⟨m', h', hle'⟩ := ih (runOp cfg st op) id m1 h1
    exact ⟨m', h', le_trans hle1 hle'⟩

theorem runOp_preserves_bounded (cfg : Config) (st : State) (op : Op)
    (hmax : 1 ≤ cfg.maxAttempts) (hb : AttemptsBounded cfg st) :
    AttemptsBounded cfg (runOp cfg st op) := by
  intro id m' h
  rcases runOp_attempts_step cfg st op id m' h with
    ⟨hnone, h0⟩ | ⟨m, hm, heq | ⟨heq, hlt⟩⟩
  · rw [h0]
    omega
  · rw [heq]
    exact hb id m hm
  · exact hlt

theorem runOps_bounded (cfg : Config) (ops : List Op)
    (hmax : 1 ≤ cfg.maxAttempts) :
    ∀ st, AttemptsBounded cfg st → AttemptsBounded cfg (runOps cfg st ops) := by
  induction ops with
  | nil => exact fun st h => h
  | cons op ops ih =>
    exact fun st h =>
      ih (runOp cfg st op) (runOp_preserves_bounded cfg st op hmax h)

/-- C7: along any sequence of admission / validate-result requests,
every record's attempts value is non-decreasing, and in any state reachable
from the empty store (with maxAttempts ≥ 1) a record that is "failed" has
attempts ≤ maxAttempts (in fact every record stays strictly below it). -/
theorem mail_attempts_monotone_and_bounded (cfg : Config)
    (hmax : 1 ≤ cfg.maxAttempts) (ops : List Op) (id : String) :
    (∀ st m, lookupMail st.store id = some m →
      ∃ m', lookupMail (runOps cfg st ops).store id = some m' ∧
        m.attempts ≤ m'.attempts) ∧
    (∀ m, lookupMail (runOps cfg initState ops).store id = some m →
      m.status = "failed" → m.attempts ≤ cfg.maxAttempts) := by
  refine ⟨fun st m h => runOps_attempts_mono cfg ops st id m h, fun m h _ => ?_⟩
  have hb : AttemptsBounded cfg (runOps cfg initState ops) :=
    runOps_bounded cfg ops hmax initState (fun i mm hmm => by
      simp [initState, lookupMail] at hmm)
  exact le_of_lt (hb id m h)

/-- Witness for C7: one admission followed by one invalid callback for
mail "a", starting from the one-record store. -/
theorem mail_attempts_monotone_and_bounded_witness :
    (1 : Int) ≤ cfg3.maxAttempts ∧
    (∃ m', lookupMail (runOps cfg3 stA
        [.validate envOk invalidDtoA]).store "a" = some m' ∧
      mailA.attempts ≤ m'.attempts) :=
  ⟨by decide,
    (mail_attempts_monotone_and_bounded cfg3 (by decide)
      [.validate envOk invalidDtoA] "a").1 stA mailA (by decide)⟩
